import Mathlib

/-!
Verification of the chat backend's gateway layer (backend/sockets/chat.js,
distributed variant) against its natural-language specification.

The durable message store is modelled as a `List Message` (insertion order);
Mongo query/sort/limit chains, the Redis latest-window cache, the streaming
session hash and the socket handlers are embedded as pure functions below.
Timestamps are naturals (milliseconds).
-/

namespace ChatSpec

/-- The `type` discriminator of a persisted ChatMessage. -/
inductive MsgType
  | text
  | file
  | system
  | ai
deriving Repr, DecidableEq

/-- One entry of a message's `readers` array: `{ userId, readAt }`. -/
structure Reader where
  userId : Nat
  readAt : Nat
deriving Repr, DecidableEq

/-- A persisted chat message (backend/models/Message) restricted to the fields
the gateway handlers read: `_id`, `room`, `sender` (null for system/ai),
`type`, `content`, `timestamp`, `readers`. -/
structure Message where
  id : Nat
  room : Nat
  sender : Option Nat
  mtype : MsgType
  content : String
  timestamp : Nat
  readers : List Reader
deriving Repr, DecidableEq

/-- `BATCH_SIZE` (chat.js line 17). -/
def BATCH_SIZE : Nat := 50

/-- `DUPLICATE_LOGIN_TIMEOUT` (chat.js line 19), milliseconds. -/
def DUPLICATE_LOGIN_TIMEOUT : Nat := 10000

/-- Mongoose `.sort({ timestamp: -1 })` comparator: newest first. -/
def tsDesc (a b : Message) : Prop := b.timestamp ≤ a.timestamp

/-- The JS comparator `(a, b) => new Date(a.timestamp) - new Date(b.timestamp)`
used to re-sort a fetched page into ascending order. -/
def tsAsc (a b : Message) : Prop := a.timestamp ≤ b.timestamp

instance : DecidableRel tsDesc := fun _ _ => Nat.decLe _ _
instance : DecidableRel tsAsc := fun _ _ => Nat.decLe _ _

instance : IsTotal Message tsAsc := ⟨fun a b => Nat.le_total a.timestamp b.timestamp⟩
instance : IsTrans Message tsAsc := ⟨fun _ _ _ h1 h2 => Nat.le_trans h1 h2⟩
instance : IsTotal Message tsDesc := ⟨fun a b => Nat.le_total b.timestamp a.timestamp⟩
instance : IsTrans Message tsDesc := ⟨fun _ _ _ h1 h2 => Nat.le_trans h2 h1⟩

/-- `Message.find(query).sort({ timestamp: -1 }).limit(n)` against the durable
store: filter, sort newest-first, keep the first `n`. -/
def findDesc (db : List Message) (p : Message → Bool) (n : Nat) : List Message :=
  ((db.filter p).insertionSort tsDesc).take n

/-- The `{messages, hasMore, oldestTimestamp}` record returned by the loaders
and stored in the cache. -/
structure LoadResult where
  messages : List Message
  hasMore : Bool
  oldestTimestamp : Option Nat
deriving Repr, DecidableEq

/-- `loadMessagesDirect(query, limit)` (chat.js 920-948): fetch `limit + 1`
newest-first, `hasMore = raw count > limit`, slice to `limit`, re-sort
ascending, `oldestTimestamp` from the first remaining message. It performs no
readers update and no cache write. -/
def loadMessagesDirect (db : List Message) (p : Message → Bool) (limit : Nat) : LoadResult :=
  let messages := findDesc db p (limit + 1)
  let hasMore := decide (messages.length > limit)
  let resultMessages := messages.take limit
  let sortedMessages := resultMessages.insertionSort tsAsc
  { messages := sortedMessages
    hasMore := hasMore
    oldestTimestamp := sortedMessages.head?.map Message.timestamp }

/-- Query predicate of the `before` branch of `fetchPreviousMessages`
(chat.js 321-325): `{ room: roomId, timestamp: { $lt: before } }`. -/
def beforePred (roomId before : Nat) (m : Message) : Bool :=
  m.room == roomId && decide (m.timestamp < before)

/-- `fetchPreviousMessages` handler, `before` branch (chat.js 321-329): the
cache is not consulted; the durable store is queried directly. -/
def fetchPreviousBefore (db : List Message) (roomId before limit : Nat) : LoadResult :=
  loadMessagesDirect db (beforePred roomId before) limit

/-- `fetchPreviousMessages` handler, cache-miss read-through for the
latest-window key (chat.js 339-344): `{ room: roomId }` query through
`loadMessagesDirect`; the result is what gets stored under
`chat:{roomId}:latest`. -/
def latestWindowRebuild (db : List Message) (roomId limit : Nat) : LoadResult :=
  loadMessagesDirect db (fun m => m.room == roomId) limit

/-- Cache write-back performed for every new message, both in the `chatMessage`
handler (chat.js 518-540) and in the `chat_messages` bus consumer
(chat.js 106-134): read the current `chat:{roomId}:latest` entry (absent or
expired counts as empty), push the new message, `splice(0, length - BATCH_SIZE)`
when the array exceeds `BATCH_SIZE`, recompute
`hasMore = (length === BATCH_SIZE)` and `oldestTimestamp`, rewrite with a
fresh TTL. `cachedMessages` is the `cachedData && cachedData.messages`
access: an absent entry yields the empty array. -/
def cachedMessages (cached : Option LoadResult) : List Message :=
  match cached with
  | some e => e.messages
  | none => []

def cacheWriteBack (cached : Option LoadResult) (m : Message) : LoadResult :=
  let messagesArr := cachedMessages cached
  let messagesArr := messagesArr ++ [m]
  let messagesArr :=
    if messagesArr.length > BATCH_SIZE then
      messagesArr.drop (messagesArr.length - BATCH_SIZE)
    else messagesArr
  { messages := messagesArr
    hasMore := messagesArr.length == BATCH_SIZE
    oldestTimestamp := messagesArr.head?.map Message.timestamp }

/-- The latest-window cache entry after a sequence of sends, starting from no
entry: every send runs the write-back of `cacheWriteBack`. -/
def cacheAfterSends (sends : List Message) : Option LoadResult :=
  sends.foldl (fun e m => some (cacheWriteBack e m)) none

/-! ### AI streaming orchestrator (chat.js 974-1112) -/

/-- One argument of the `onChunk` callback: `chunk.currentChunk` text and the
`chunk.isCodeBlock` flag. -/
structure AIChunk where
  currentChunk : String
  isCodeBlock : Bool
deriving Repr, DecidableEq

/-- The terminal callback of one `aiService.generateResponse` run:
`onComplete(finalContent)`, `onError(error)`, or `generateResponse` itself
throwing into the orchestrator's `catch`. -/
inductive AITerminal
  | complete (finalContent : String)
  | errorCb (msg : String)
  | thrown (msg : String)
deriving Repr, DecidableEq

/-- Modelled from the spec: `aiService.generateResponse` (the AI collaborator,
backend/services/aiService.js, not under src/). Per spec section 6 its interface
is `generate(query, aiType, {onStart, onChunk, onComplete, onError})`; one run
invokes `onChunk` once per chunk, in order, and then fires exactly one terminal
transition. -/
structure AIRun where
  chunks : List AIChunk
  terminal : AITerminal
deriving Repr, DecidableEq

/-- Events a `handleAIResponse` invocation emits to the room. -/
inductive AIEvent
  | start (messageId : String) (aiType : String)
  | chunk (messageId : String) (currentChunk : String) (fullContent : String)
  | complete (messageId : String) (content : String)
  | errorEv (messageId : String) (errMsg : String)
deriving Repr, DecidableEq

/-- `aiMessageChunk` events of the `onChunk` callback (chat.js 1007-1028),
threading the `accumulatedContent` accumulator: each event carries the raw
delta and the accumulated `fullContent`. -/
def chunkEventsFrom (messageId : String) (acc : String) : List AIChunk → List AIEvent
  | [] => []
  | c :: rest =>
      AIEvent.chunk messageId c.currentChunk (acc ++ c.currentChunk)
        :: chunkEventsFrom messageId (acc ++ c.currentChunk) rest

/-- All `aiMessageChunk` events of a run, starting from the empty accumulator. -/
def chunkEvents (messageId : String) (chunks : List AIChunk) : List AIEvent :=
  chunkEventsFrom messageId "" chunks

/-- One entry of the `streaming_sessions` Redis hash as written by
`handleAIResponse` (chat.js 979-993). The stored JS object has NO `userId`
property; `userId` models the optional property and is `none` at every
creation site of chat.js. -/
structure StreamingSession where
  room : Nat
  aiType : String
  content : String
  messageId : String
  lastUpdate : Nat
  userId : Option Nat
deriving Repr, DecidableEq

/-- The `streaming_sessions` hash: association list keyed by messageId. -/
abbrev SessionHash : Type := List (String × StreamingSession)

/-- `redisClient.hSet(STREAMING_SESSIONS_KEY, k, v)`: overwrite the entry for
`k`, or append it when absent. -/
def hSet (h : SessionHash) (k : String) (v : StreamingSession) : SessionHash :=
  if h.any (fun e => e.1 == k) then
    h.map (fun e => if e.1 == k then (k, v) else e)
  else h ++ [(k, v)]

/-- `redisClient.hDel(STREAMING_SESSIONS_KEY, k)`: remove the entry for `k`. -/
def hDel (h : SessionHash) (k : String) : SessionHash :=
  h.filter (fun e => e.1 != k)

/-- The `sessionData` record created at the start of `handleAIResponse`
(chat.js 979-987): `{room, aiType, content: "", messageId, timestamp,
lastUpdate, reactions}` — no `userId` property. -/
def newStreamingSession (room : Nat) (aiName messageId : String) (now : Nat) :
    StreamingSession :=
  { room := room
    aiType := aiName
    content := ""
    messageId := messageId
    lastUpdate := now
    userId := none }

/-- The per-chunk `hSet` updates of `onChunk` (chat.js 1008-1018), threading
the accumulated content. -/
def hashAfterChunks (messageId : String) (base : StreamingSession) :
    String → SessionHash → List AIChunk → SessionHash
  | _, h, [] => h
  | acc, h, c :: rest =>
      hashAfterChunks messageId base (acc ++ c.currentChunk)
        (hSet h messageId { base with content := acc ++ c.currentChunk }) rest

/-- Result of one `handleAIResponse` invocation: events emitted to the room,
the persisted ai message if any, and the final `streaming_sessions` hash. -/
structure AIRunResult where
  events : List AIEvent
  persisted : Option Message
  sessions : SessionHash
deriving Repr, DecidableEq

/-- The ai-typed Message persisted by `onComplete` (chat.js 1033-1048):
`content` is `finalContent.content`, `type` is `ai`, no sender. -/
def aiPersistedMessage (newId room : Nat) (finalContent : String) (now : Nat) :
    Message :=
  { id := newId
    room := room
    sender := none
    mtype := MsgType.ai
    content := finalContent
    timestamp := now
    readers := [] }

/-- `handleAIResponse(io, room, aiName, query)` (chat.js 974-1112): create the
StreamingSession, emit `aiMessageStart`, per chunk update the session and emit
`aiMessageChunk`, then on the terminal transition delete the session exactly
once (`onComplete`, `onError` and the surrounding `catch` each call `hDel`
first) and emit `aiMessageComplete` (persisting the ai message) or
`aiMessageError` (persisting nothing). -/
def handleAIResponse (h0 : SessionHash) (room : Nat) (aiName messageId : String)
    (now newId : Nat) (run : AIRun) : AIRunResult :=
  let sessionData := newStreamingSession room aiName messageId now
  let h1 := hSet h0 messageId sessionData
  let h2 := hashAfterChunks messageId sessionData "" h1 run.chunks
  let startEvs := [AIEvent.start messageId aiName]
  let cEvs := chunkEvents messageId run.chunks
  match run.terminal with
  | AITerminal.complete finalContent =>
      { events := startEvs ++ cEvs ++ [AIEvent.complete messageId finalContent]
        persisted := some (aiPersistedMessage newId room finalContent now)
        sessions := hDel h2 messageId }
  | AITerminal.errorCb msg =>
      { events := startEvs ++ cEvs ++ [AIEvent.errorEv messageId msg]
        persisted := none
        sessions := hDel h2 messageId }
  | AITerminal.thrown msg =>
      { events := startEvs ++ cEvs ++ [AIEvent.errorEv messageId msg]
        persisted := none
        sessions := hDel h2 messageId }

/-- `disconnect` handler, streaming-session cleanup (chat.js 738-748): delete
every hash entry whose `session.userId` equals the disconnecting user's id
(`session.userId === socket.user.id`; an absent property never matches). -/
def disconnectStreamCleanup (h : SessionHash) (uid : Nat) : SessionHash :=
  h.filter (fun e => !(e.2.userId == some uid))

/-! ### Duplicate-login protocol (auth middleware, chat.js 247-265) -/

/-- Notices the middleware emits to (or actions it takes on) a socket. -/
inductive GatewayNotice
  | duplicateLogin
  | sessionEnded
  | forceDisconnect
deriving Repr, DecidableEq

/-- A notice delivered to socket `target` at absolute time `time` (ms). -/
structure TimedEmit where
  time : Nat
  target : Nat
  notice : GatewayNotice
deriving Repr, DecidableEq

/-- Duplicate-login branch of the auth middleware (chat.js 247-265), run when
connection B authenticates as a user who already has live sockets: every
existing socket immediately receives `duplicate_login`, and a
`setTimeout(..., DUPLICATE_LOGIN_TIMEOUT)` schedules `session_ended` plus
`disconnect(true)` for it at `authTime + DUPLICATE_LOGIN_TIMEOUT`. The new
socket is not in `existingSockets` (it joins its user room only after the
middleware) and is never targeted. -/
def duplicateLoginProtocol (authTime : Nat) (existingSockets : List Nat) :
    List TimedEmit :=
  existingSockets.flatMap (fun esocket =>
    [ { time := authTime, target := esocket, notice := GatewayNotice.duplicateLogin },
      { time := authTime + DUPLICATE_LOGIN_TIMEOUT, target := esocket,
        notice := GatewayNotice.sessionEnded },
      { time := authTime + DUPLICATE_LOGIN_TIMEOUT, target := esocket,
        notice := GatewayNotice.forceDisconnect } ])

/-- Effect of the timer callback's `esocket.disconnect(true)` on the old
socket's connected flag: after the timer fires the socket is disconnected,
whether or not it had already disconnected on its own (disconnecting a dead
socket is a no-op that leaves it disconnected). -/
def evictAtExpiry (_connectedBefore : Bool) : Bool := false

/-! ### markMessagesAsRead (chat.js 815-838) -/

/-- `readers.userId: { $ne: uid }` test: does some reader entry carry `uid`? -/
def hasReader (m : Message) (uid : Nat) : Bool :=
  m.readers.any (fun r => r.userId == uid)

/-- The `messagesRead` broadcast payload `{userId, messageIds}`. -/
structure ReadBroadcast where
  userId : Nat
  messageIds : List Nat
deriving Repr, DecidableEq

/-- `markMessagesAsRead` handler (chat.js 815-838): return silently when
`messageIds` is empty; otherwise `updateMany` pushes `{userId, readAt}` onto
`readers` of every message matching `_id ∈ messageIds ∧ room = roomId` whose
readers do not already contain the user, then broadcasts `messagesRead` to
the room. Returns the updated store and the broadcast (if any).
`markReadUpdate` is the per-message effect of that `updateMany`. -/
def markReadUpdate (uid roomId now : Nat) (messageIds : List Nat) (m : Message) :
    Message :=
  if m.id ∈ messageIds ∧ m.room = roomId ∧ hasReader m uid = false then
    { m with readers := m.readers ++ [⟨uid, now⟩] }
  else m

def markMessagesAsRead (uid roomId now : Nat) (messageIds : List Nat)
    (db : List Message) : List Message × Option ReadBroadcast :=
  if messageIds.isEmpty then (db, none)
  else
    (db.map (markReadUpdate uid roomId now messageIds),
      some { userId := uid, messageIds := messageIds })

/-! ### chatMessage handler (chat.js 358-549) -/

/-- JS `String.prototype.trim()`: strip leading and trailing whitespace. -/
def jsTrim (s : String) : String :=
  ⟨((s.data.dropWhile Char.isWhitespace).reverse.dropWhile Char.isWhitespace).reverse⟩

/-- JS `s.startsWith(p)`. -/
def strStartsWith (s p : String) : Bool := p.data.isPrefixOf s.data

/-- JS `s.substring(n)` with `n` counted in characters. -/
def strDropChars (s : String) (n : Nat) : String := ⟨s.data.drop n⟩

/-- The `/정답 ` command literal (chat.js 379). -/
def answerCommand : String := "/정답 "

/-- `content.substring("/정답 ".length).trim()` (chat.js 380). -/
def answerName (content : String) : String :=
  jsTrim (strDropChars content answerCommand.data.length)

/-- The text case's `content?.trim() || messageData.msg?.trim()`
(chat.js 428): an absent field and an empty trimmed string are both falsy, so
the result is the trimmed `content` when non-empty, else the trimmed `msg`
when present, else the empty string; `""` means the handler returns silently. -/
def jsTextContent (content msg : Option String) : String :=
  match content with
  | some c =>
      let t := jsTrim c
      if t.isEmpty then
        match msg with
        | some m2 => jsTrim m2
        | none => ""
      else t
  | none =>
      match msg with
      | some m2 => jsTrim m2
      | none => ""

/-- The inbound `chatMessage` payload `{room, type, content, msg?, fileData?}`;
`ptype` is the raw `type` string and `fileId` is `fileData._id`. -/
structure ChatMessagePayload where
  room : Option Nat
  ptype : String
  content : Option String
  msg : Option String
  fileId : Option Nat
deriving Repr, DecidableEq

/-- Observable effects of one `chatMessage` invocation, in program order. -/
inductive Effect
  | answerCheck (room : Nat) (correct : Bool) (username : String)
  | persistMsg (m : Message)
  | publish (room : Nat) (m : Message)
  | aiInvoke (aiName : String)
  | emitLocal (room : Nat) (m : Message)
  | cacheSet (room : Nat) (entry : LoadResult)
  | errorEmit (code : String) (message : String)
deriving Repr, DecidableEq

/-- Collaborator responses and process state consumed by one `chatMessage`
invocation: each field is the value the corresponding awaited call returns
(chat.js line in parentheses). -/
structure HandlerCtx where
  /-- `socket.user?.id` (360). -/
  userId : Option Nat
  /-- `Room.findOne({_id: room, participants}) !== null` (366-370). -/
  roomAccess : Bool
  /-- `SessionService.validateSession(...).isValid` (372-377). -/
  sessionValid : Bool
  /-- `File.findOne({_id, user}) !== null` (404-409). -/
  fileOwned : Bool
  /-- id the store assigns to the saved message (446). -/
  newMessageId : Nat
  /-- `new Date()` at message construction. -/
  now : Nat
  /-- `extractAIMentions(content)` (389), kept abstract. -/
  aiMentions : List String
  /-- `roomMessageCountMap.get(room) || 0` (469). -/
  roomCount : Nat
  /-- `Message.findOne({room}).sort({timestamp:-1}) !== null` (474-476). -/
  dbHasRecent : Bool
  /-- `aiService.generateGhostResponse(...)` reply text (482-486). -/
  ghostReply : String
  /-- id the store assigns to the saved ghost ai message (498). -/
  ghostMessageId : Nat
  /-- whether `redisClient.get(cacheKey)` resolves (519); `redisClient.get`
  rethrows its error after logging (redisClient.js 101-104). -/
  cacheGetOk : Bool
  /-- the cached entry returned when the get resolves. -/
  cachedEntry : Option LoadResult
  /-- whether `redisClient.setEx(...)` resolves (540); `redisClient.setEx`
  rethrows its error after logging (redisClient.js 107-119). -/
  cacheSetOk : Bool
  /-- `error.message` of the failing cache operation. -/
  cacheErrMsg : String
deriving Repr, DecidableEq

/-- The user Message built by the `text` case (chat.js 431-438). -/
def builtTextMessage (ctx : HandlerCtx) (room uid : Nat) (mc : String) : Message :=
  { id := ctx.newMessageId
    room := room
    sender := some uid
    mtype := MsgType.text
    content := mc
    timestamp := ctx.now
    readers := [] }

/-- The user Message built by the `file` case (chat.js 411-424). -/
def builtFileMessage (ctx : HandlerCtx) (room uid : Nat) (content : Option String) :
    Message :=
  { id := ctx.newMessageId
    room := room
    sender := some uid
    mtype := MsgType.file
    content := content.getD ""
    timestamp := ctx.now
    readers := [] }

/-- The ghost ai Message of the scripted-reply branch (chat.js 489-496). -/
def ghostMessage (ctx : HandlerCtx) (room : Nat) : Message :=
  { id := ctx.ghostMessageId
    room := room
    sender := none
    mtype := MsgType.ai
    content := ctx.ghostReply
    timestamp := ctx.now
    readers := [] }

/-- The `catch` block (chat.js 542-548): emit
`error{code: error.code || "MESSAGE_ERROR", message}` after whatever effects
already happened. None of the errors thrown in the handler carries a `code`
property. -/
def failWith (trace : List Effect) (message : String) : List Effect :=
  trace ++ [Effect.errorEmit "MESSAGE_ERROR" message]

/-- Steps of the `chatMessage` handler after a message was built: save,
publish, trigger AI mentions, run the scripted-reply counter branch, then the
latest-window cache read-modify-write (chat.js 445-541), with the `catch`
applied to any throw. -/
def chatMessageAfterBuild (ctx : HandlerCtx) (room : Nat) (message : Message) :
    List Effect :=
  let trace := [Effect.persistMsg message, Effect.publish room message]
      ++ ctx.aiMentions.map Effect.aiInvoke
  let newCount := ctx.roomCount + 1
  if newCount ≥ 2 && !ctx.dbHasRecent then
    failWith trace "최근 메시지를 가져올 수 없습니다."
  else
    let trace := if newCount ≥ 2 then
        trace ++ [Effect.persistMsg (ghostMessage ctx room),
          Effect.emitLocal room (ghostMessage ctx room),
          Effect.publish room (ghostMessage ctx room)]
      else trace
    if !ctx.cacheGetOk then failWith trace ctx.cacheErrMsg
    else
      let updatedResult := cacheWriteBack ctx.cachedEntry message
      if !ctx.cacheSetOk then failWith trace ctx.cacheErrMsg
      else trace ++ [Effect.cacheSet room updatedResult]

/-- `chatMessage` handler (chat.js 358-549): guards, the `/정답 ` command, the
type switch building the message, then `chatMessageAfterBuild`. A silent
`return` yields the effects emitted so far; a throw is routed through the
`catch` by `failWith`. -/
def chatMessage (ctx : HandlerCtx) (payload : Option ChatMessagePayload) :
    List Effect :=
  match ctx.userId with
  | none => failWith [] "Unauthorized"
  | some uid =>
    match payload with
    | none => failWith [] "메시지 데이터가 없습니다."
    | some md =>
      match md.room with
      | none => failWith [] "채팅방 정보가 없습니다."
      | some room =>
        if !ctx.roomAccess then failWith [] "채팅방 접근 권한이 없습니다."
        else if !ctx.sessionValid then
          failWith [] "세션이 만료되었습니다. 다시 로그인해주세요."
        else if (match md.content with
            | some c => strStartsWith c answerCommand
            | none => false) then
          match md.content with
          | some c =>
              [Effect.answerCheck room (answerName c == "용가리") (answerName c)]
          | none => []
        else
          match md.ptype with
          | "file" =>
              match md.fileId with
              | none => failWith [] "파일 데이터가 올바르지 않습니다."
              | some _ =>
                  if !ctx.fileOwned then
                    failWith [] "파일을 찾을 수 없거나 접근 권한이 없습니다."
                  else
                    chatMessageAfterBuild ctx room
                      (builtFileMessage ctx room uid md.content)
          | "text" =>
              let mc := jsTextContent md.content md.msg
              if mc.isEmpty then []
              else chatMessageAfterBuild ctx room (builtTextMessage ctx room uid mc)
          | _ => failWith [] "지원하지 않는 메시지 타입입니다."

/-! ### Page loads with the readers side effect (chat.js 865-948, 156-224) -/

/-- Query predicate shared by `loadMessages`, `loadMessagesDirect` callers and
the `message_requests` consumer: `{ room: roomId }` plus
`timestamp: { $lt: before }` when `before` is given. -/
def pagePred (roomId : Nat) (before : Option Nat) (m : Message) : Bool :=
  m.room == roomId &&
    (match before with
     | some b => decide (m.timestamp < b)
     | none => true)

/-- The `updateMany({_id ∈ ids, readers.userId ≠ uid}, {$push: readers})`
applied per message (chat.js 898-904 and 200-206): append `{userId, readAt}`
only when the message is one of the returned ids and the user is not already
a reader. Note the filter has no room condition. -/
def applyReadersUpdate (uid now : Nat) (ids : List Nat) (m : Message) : Message :=
  if m.id ∈ ids ∧ hasReader m uid = false then
    { m with readers := m.readers ++ [⟨uid, now⟩] }
  else m

/-- `loadMessages(socket, roomId, before, limit)` (chat.js 865-918): the same
query/sort/slice logic as `loadMessagesDirect`, followed by the readers
update on every returned message. Returns the page and the updated store. -/
def loadMessages (db : List Message) (uid roomId : Nat) (before : Option Nat)
    (limit now : Nat) : LoadResult × List Message :=
  let result := loadMessagesDirect db (pagePred roomId before) limit
  let ids := result.messages.map Message.id
  (result, db.map (applyReadersUpdate uid now ids))

/-- `message_requests` bus consumer (chat.js 156-224): on a cache hit for the
`chat:{roomId}:before:{...}` key, respond with the cached page and touch
nothing; on a miss, run the query with `BATCH_SIZE`, apply the readers update
for the requesting user, cache the page, and respond. Returns the page, the
updated store, and whether a cache entry was written. -/
def messageRequestConsumer (db : List Message) (cached : Option LoadResult)
    (uid roomId : Nat) (before : Option Nat) (now : Nat) :
    LoadResult × List Message × Bool :=
  match cached with
  | some cachedData => (cachedData, db, false)
  | none =>
      let pr := loadMessages db uid roomId before BATCH_SIZE now
      (pr.1, pr.2, true)

/-! ### Derived notions and concrete fixtures used by the theorems -/

/-- Strict ascending-timestamp order. -/
def tsLt (a b : Message) : Prop := a.timestamp < b.timestamp

instance : DecidableRel tsLt := fun _ _ => Nat.decLt _ _

/-- Deltas carried by the `aiMessageChunk` events of a trace. -/
def chunkDeltas (evs : List AIEvent) : List String :=
  evs.filterMap (fun e => match e with
    | AIEvent.chunk _ d _ => some d
    | _ => none)

/-- Recognize an `aiMessageStart` event. -/
def isStartEv : AIEvent → Bool
  | AIEvent.start _ _ => true
  | _ => false

/-- Recognize a terminal (`aiMessageComplete` or `aiMessageError`) event. -/
def isTerminalEv : AIEvent → Bool
  | AIEvent.complete _ _ => true
  | AIEvent.errorEv _ _ => true
  | _ => false

/-- Recognize the `Complete` terminal of a run. -/
def isCompleteTerminal : AITerminal → Bool
  | AITerminal.complete _ => true
  | _ => false

/-- A persisted text message of room 1 whose id and timestamp are both `t`. -/
def mkDbMsg (t : Nat) : Message :=
  { id := t, room := 1, sender := some 0, mtype := MsgType.text,
    content := "m", timestamp := t, readers := [] }

/-- A room holding 60 messages with timestamps `1 < 2 < ... < 60`. -/
def db60 : List Message := (List.range 60).map (fun i => mkDbMsg (i + 1))

/-- A room holding exactly 50 persisted messages. -/
def db50 : List Message := (List.range 50).map (fun i => mkDbMsg (i + 1))

/-- Three sends with strictly increasing timestamps. -/
def sends3 : List Message := [mkDbMsg 1, mkDbMsg 2, mkDbMsg 3]

/-- The cache entry after the three sends of `sends3`. -/
def entry3 : LoadResult := (cacheAfterSends sends3).getD ⟨[], false, none⟩

/-- A concrete AI run: two chunks whose final content is their concatenation. -/
def runW : AIRun :=
  { chunks := [⟨"He", false⟩, ⟨"llo", true⟩], terminal := AITerminal.complete "Hello" }

/-- Collaborator context for the concrete chatMessage scenarios: all checks
pass, the cache is reachable, the scripted-reply counter is fresh. -/
def ctxOk : HandlerCtx :=
  { userId := some 7
    roomAccess := true
    sessionValid := true
    fileOwned := false
    newMessageId := 100
    now := 1000
    aiMentions := []
    roomCount := 0
    dbHasRecent := true
    ghostReply := ""
    ghostMessageId := 101
    cacheGetOk := true
    cachedEntry := none
    cacheSetOk := true
    cacheErrMsg := "Redis cluster get error" }

/-- Same context, but `redisClient.get` rejects. -/
def ctxCacheDown : HandlerCtx := { ctxOk with cacheGetOk := false }

/-- A text payload whose content trims to the empty string. -/
def payloadBlank : ChatMessagePayload :=
  { room := some 1, ptype := "text", content := some "   ", msg := none, fileId := none }

/-- Blank content but a non-empty legacy `msg` field. -/
def payloadBlankWithMsg : ChatMessagePayload :=
  { room := some 1, ptype := "text", content := some "   ", msg := some " hi ", fileId := none }

/-- An ordinary non-empty text payload. -/
def payloadHello : ChatMessagePayload :=
  { room := some 1, ptype := "text", content := some "hello", msg := none, fileId := none }

end ChatSpec

namespace ChatSpec

/-! ### General lemmas about the page loader -/

theorem loadMessagesDirect_messages_eq (db : List Message) (p : Message → Bool) (limit : Nat) :
    (loadMessagesDirect db p limit).messages
      = (((db.filter p).insertionSort tsDesc).take limit).insertionSort tsAsc := by
  simp only [loadMessagesDirect, findDesc]
  rw [List.take_take, Nat.min_eq_left (Nat.le_succ limit)]

theorem loadMessagesDirect_length (db : List Message) (p : Message → Bool) (limit : Nat) :
    (loadMessagesDirect db p limit).messages.length = min limit (db.filter p).length := by
  rw [loadMessagesDirect_messages_eq, List.length_insertionSort, List.length_take,
    List.length_insertionSort]

theorem loadMessagesDirect_sorted (db : List Message) (p : Message → Bool) (limit : Nat) :
    (loadMessagesDirect db p limit).messages.Sorted tsAsc := by
  rw [loadMessagesDirect_messages_eq]
  exact List.sorted_insertionSort tsAsc _

theorem loadMessagesDirect_mem (db : List Message) (p : Message → Bool) (limit : Nat)
    (m : Message) (hm : m ∈ (loadMessagesDirect db p limit).messages) : m ∈ db ∧ p m = true := by
  rw [loadMessagesDirect_messages_eq] at hm
  have h1 : m ∈ ((db.filter p).insertionSort tsDesc).take limit :=
    (List.perm_insertionSort tsAsc _).mem_iff.mp hm
  have h2 : m ∈ (db.filter p).insertionSort tsDesc := List.mem_of_mem_take h1
  have h3 : m ∈ db.filter p := (List.perm_insertionSort tsDesc _).mem_iff.mp h2
  exact ⟨(List.mem_filter.mp h3).1, (List.mem_filter.mp h3).2⟩

theorem loadMessagesDirect_hasMore (db : List Message) (p : Message → Bool) (limit : Nat) :
    (loadMessagesDirect db p limit).hasMore = true ↔ limit < (db.filter p).length := by
  simp only [loadMessagesDirect, findDesc, decide_eq_true_eq, List.length_take,
    List.length_insertionSort]
  omega

/-- C1: with `before` given, `fetchPreviousMessages` bypasses the cache (its
`before` branch is `loadMessagesDirect` alone) and returns the newest
`min limit count` messages with `timestamp < before` of the room, re-sorted
ascending, with `hasMore = (raw fetched count > limit)`; concretely, on a room
with timestamps 1..60, `before = 40` yields the 39 messages `1..39` ascending
with `hasMore = false`, and `before = 60, limit = 10` yields `50..59`
ascending with `hasMore = true`. -/
theorem claim1_fetch_before_pagination :
    (∀ (db : List Message) (roomId before limit : Nat),
      (fetchPreviousBefore db roomId before limit).messages.length
          = min limit ((db.filter (beforePred roomId before)).length)
      ∧ (fetchPreviousBefore db roomId before limit).messages.Sorted tsAsc
      ∧ (∀ m ∈ (fetchPreviousBefore db roomId before limit).messages,
           m.room = roomId ∧ m.timestamp < before)
      ∧ ((fetchPreviousBefore db roomId before limit).hasMore = true
          ↔ limit < (db.filter (beforePred roomId before)).length))
    ∧ fetchPreviousBefore db60 1 40 BATCH_SIZE
        = { messages := (List.range 39).map (fun i => mkDbMsg (i + 1))
            hasMore := false
            oldestTimestamp := some 1 }
    ∧ fetchPreviousBefore db60 1 60 10
        = { messages := (List.range 10).map (fun i => mkDbMsg (i + 50))
            hasMore := true
            oldestTimestamp := some 50 } := by
  refine ⟨fun db roomId before limit => ⟨?_, ?_, ?_, ?_⟩, by decide, by decide⟩
  · exact loadMessagesDirect_length db (beforePred roomId before) limit
  · exact loadMessagesDirect_sorted db (beforePred roomId before) limit
  · intro m hm
    have := (loadMessagesDirect_mem db (beforePred roomId before) limit m hm).2
    simp only [beforePred, Bool.and_eq_true, beq_iff_eq, decide_eq_true_eq] at this
    exact this
  · exact loadMessagesDirect_hasMore db (beforePred roomId before) limit

/-- Witness for C1 at a concrete input: message 39 is returned for
`before = 40` and indeed belongs to room 1 with timestamp below 40. -/
theorem claim1_witness :
    mkDbMsg 39 ∈ (fetchPreviousBefore db60 1 40 BATCH_SIZE).messages
    ∧ (mkDbMsg 39).room = 1 ∧ (mkDbMsg 39).timestamp < 40 :=
  ⟨by decide, (claim1_fetch_before_pagination.1 db60 1 40 BATCH_SIZE).2.2.1
      (mkDbMsg 39) (by decide)⟩

/-- C2 counterexample: a room with exactly 50 persisted messages. The claim
says the rebuilt latest-window entry has `hasMore = true` (the room has ≥ 50
messages), but the read-through of `fetchPreviousMessages` fetches up to 51
and stores `hasMore = (raw count > 50)`, which is `false` here. -/
theorem claim2_cex :
    (latestWindowRebuild db50 1 BATCH_SIZE).hasMore = false
    ∧ 50 ≤ (db50.filter (fun m => m.room == 1)).length := by
  constructor <;> decide

/-- C2 amended: the latest-window read-through rebuild stores
`hasMore = true` iff the room holds at least `BATCH_SIZE + 1 = 51` persisted
messages at rebuild time (it fetches `BATCH_SIZE + 1` newest messages and
stores `hasMore = (raw fetched count > BATCH_SIZE)`). -/
theorem claim2_amended :
    ∀ (db : List Message) (roomId : Nat),
      (latestWindowRebuild db roomId BATCH_SIZE).hasMore = true
        ↔ BATCH_SIZE < (db.filter (fun m => m.room == roomId)).length :=
  fun db roomId => loadMessagesDirect_hasMore db (fun m => m.room == roomId) BATCH_SIZE

/-! ### Write-back invariant lemmas -/

theorem cacheWriteBack_length (cached : Option LoadResult) (m : Message) :
    (cacheWriteBack cached m).messages.length ≤ BATCH_SIZE := by
  simp only [cacheWriteBack]
  split
  · simp only [List.length_drop]
    omega
  · rename_i h
    simp only [Nat.not_lt] at h
    omega

theorem cacheWriteBack_mem (cached : Option LoadResult) (m : Message) (x : Message)
    (hx : x ∈ (cacheWriteBack cached m).messages) :
    x ∈ cachedMessages cached ∨ x = m := by
  simp only [cacheWriteBack] at hx
  have hx2 : x ∈ cachedMessages cached ++ [m] := by
    split at hx
    · exact List.mem_of_mem_drop hx
    · exact hx
  rcases List.mem_append.mp hx2 with h | h
  · exact Or.inl h
  · exact Or.inr (List.mem_singleton.mp h)

theorem cacheWriteBack_pairwise (cached : Option LoadResult) (m : Message)
    (hs : (cachedMessages cached).Pairwise tsLt)
    (hlt : ∀ x ∈ cachedMessages cached, tsLt x m) :
    (cacheWriteBack cached m).messages.Pairwise tsLt := by
  have harr : (cachedMessages cached ++ [m]).Pairwise tsLt := by
    rw [List.pairwise_append]
    exact ⟨hs, List.pairwise_singleton _ _, fun a ha b hb => by
      rw [List.mem_singleton.mp hb]; exact hlt a ha⟩
  simp only [cacheWriteBack]
  split
  · exact List.Pairwise.sublist (List.drop_sublist _ _) harr
  · exact harr

theorem cacheAfterSends_aux (sends : List Message) :
    ∀ (e0 : Option LoadResult),
      sends.Pairwise tsLt →
      (∀ r0, e0 = some r0 →
        (r0.messages.length ≤ BATCH_SIZE ∧ r0.messages.Pairwise tsLt)
        ∧ ∀ x ∈ r0.messages, ∀ s ∈ sends, tsLt x s) →
      ∀ r, sends.foldl (fun e m => some (cacheWriteBack e m)) e0 = some r →
        r.messages.length ≤ BATCH_SIZE ∧ r.messages.Pairwise tsLt := by
  induction sends with
  | nil =>
      intro e0 _ h0 r hr
      exact (h0 r hr).1
  | cons s rest ih =>
      intro e0 hp h0 r hr
      simp only [List.foldl_cons] at hr
      rw [List.pairwise_cons] at hp
      refine ih (some (cacheWriteBack e0 s)) hp.2 ?_ r hr
      intro r0 h1
      injection h1 with h1
      subst h1
      have hmsgs : (cachedMessages e0).Pairwise tsLt := by
        cases e0 with
        | none => exact List.Pairwise.nil
        | some e => exact ((h0 e rfl).1).2
      have hlt : ∀ x ∈ cachedMessages e0, tsLt x s := by
        cases e0 with
        | none => intro x hx; cases hx
        | some e => intro x hx; exact (h0 e rfl).2 x hx s (List.mem_cons_self s rest)
      refine ⟨⟨cacheWriteBack_length e0 s, cacheWriteBack_pairwise e0 s hmsgs hlt⟩, ?_⟩
      intro x hx t ht
      rcases cacheWriteBack_mem e0 s x hx with h | h
      · cases e0 with
        | none => cases h
        | some e => exact (h0 e rfl).2 x h t (List.mem_cons_of_mem s ht)
      · subst h; exact hp.1 t ht

/-- C3: for every sequence of sends with strictly increasing timestamps (each
send stamps the message with the current clock), the latest-window entry
produced by folding the cache write-back from an empty cache holds at most
`BATCH_SIZE = 50` messages, ordered strictly ascending by timestamp. -/
theorem claim3_latest_window_invariant :
    ∀ (sends : List Message), sends.Pairwise tsLt →
      ∀ r, cacheAfterSends sends = some r →
        r.messages.length ≤ BATCH_SIZE ∧ r.messages.Pairwise tsLt := by
  intro sends hp r hr
  exact cacheAfterSends_aux sends none hp (fun r0 h => by cases h) r hr

/-- Witness for C3: three concrete sends with increasing timestamps produce a
cache entry of at most 50 strictly ascending messages. -/
theorem claim3_witness :
    sends3.Pairwise tsLt
    ∧ (entry3.messages.length ≤ BATCH_SIZE ∧ entry3.messages.Pairwise tsLt) :=
  ⟨by decide, claim3_latest_window_invariant sends3 (by decide) entry3 (by decide)⟩

/-! ### AI streaming lemmas -/

theorem chunkDeltas_chunkEventsFrom (messageId : String) :
    ∀ (cs : List AIChunk) (acc : String),
      chunkDeltas (chunkEventsFrom messageId acc cs) = cs.map AIChunk.currentChunk := by
  intro cs
  induction cs with
  | nil => intro acc; rfl
  | cons c rest ih =>
      intro acc
      simp only [chunkEventsFrom, chunkDeltas, List.filterMap_cons, List.map_cons]
      rw [← chunkDeltas]
      rw [ih (acc ++ c.currentChunk)]

theorem countP_chunkEventsFrom (p : AIEvent → Bool)
    (hp : ∀ mid d f, p (AIEvent.chunk mid d f) = false) (messageId : String) :
    ∀ (cs : List AIChunk) (acc : String),
      (chunkEventsFrom messageId acc cs).countP p = 0 := by
  intro cs
  induction cs with
  | nil => intro acc; rfl
  | cons c rest ih =>
      intro acc
      simp [chunkEventsFrom, List.countP_cons, ih (acc ++ c.currentChunk),
        hp messageId c.currentChunk (acc ++ c.currentChunk)]

theorem chunkEventsFrom_mem (messageId : String) :
    ∀ (cs : List AIChunk) (acc : String),
      ∀ ev ∈ chunkEventsFrom messageId acc cs,
        ∃ d f, ev = AIEvent.chunk messageId d f := by
  intro cs
  induction cs with
  | nil => intro acc ev hev; cases hev
  | cons c rest ih =>
      intro acc ev hev
      rcases hev with _ | ⟨_, hev⟩
      · exact ⟨c.currentChunk, acc ++ c.currentChunk, rfl⟩
      · exact ih (acc ++ c.currentChunk) ev hev

/-- C4: every `handleAIResponse` invocation emits exactly one
`aiMessageStart`, then the `aiMessageChunk` events of its chunks, then exactly
one terminal event (`aiMessageComplete` or `aiMessageError`); and — under the
spec-modelled collaborator contract that `onComplete`'s final content is the
accumulation of the chunks — on completion the persisted ai message's content
equals the concatenation of all emitted chunk deltas. -/
theorem claim4_streaming_event_sequence :
    ∀ (h0 : SessionHash) (room : Nat) (aiName messageId : String) (now newId : Nat)
      (run : AIRun),
      (∀ f, run.terminal = AITerminal.complete f →
        f = String.join (run.chunks.map AIChunk.currentChunk)) →
      ((∃ f, (handleAIResponse h0 room aiName messageId now newId run).events
            = AIEvent.start messageId aiName
                :: (chunkEvents messageId run.chunks ++ [AIEvent.complete messageId f]))
        ∨ (∃ e, (handleAIResponse h0 room aiName messageId now newId run).events
            = AIEvent.start messageId aiName
                :: (chunkEvents messageId run.chunks ++ [AIEvent.errorEv messageId e])))
      ∧ (∀ ev ∈ chunkEvents messageId run.chunks, ∃ d f, ev = AIEvent.chunk messageId d f)
      ∧ (handleAIResponse h0 room aiName messageId now newId run).events.countP isStartEv = 1
      ∧ (handleAIResponse h0 room aiName messageId now newId run).events.countP isTerminalEv = 1
      ∧ (∀ f, run.terminal = AITerminal.complete f →
          (handleAIResponse h0 room aiName messageId now newId run).persisted
              = some (aiPersistedMessage newId room f now)
          ∧ f = String.join (chunkDeltas
              ((handleAIResponse h0 room aiName messageId now newId run).events))) := by
  intro h0 room aiName messageId now newId run hc
  have hstart0 : (chunkEvents messageId run.chunks).countP isStartEv = 0 :=
    countP_chunkEventsFrom isStartEv (fun _ _ _ => rfl) messageId run.chunks ""
  have hterm0 : (chunkEvents messageId run.chunks).countP isTerminalEv = 0 :=
    countP_chunkEventsFrom isTerminalEv (fun _ _ _ => rfl) messageId run.chunks ""
  have hdeltas : chunkDeltas (chunkEvents messageId run.chunks)
      = run.chunks.map AIChunk.currentChunk :=
    chunkDeltas_chunkEventsFrom messageId run.chunks ""
  cases hterm : run.terminal with
  | complete f =>
      refine ⟨Or.inl ⟨f, by simp [handleAIResponse, hterm]⟩,
        chunkEventsFrom_mem messageId run.chunks "", ?_, ?_, ?_⟩
      · simp [handleAIResponse, hterm, List.countP_cons, List.countP_append, hstart0, isStartEv,
          isTerminalEv]
      · simp [handleAIResponse, hterm, List.countP_cons, List.countP_append, hterm0, isStartEv,
          isTerminalEv]
      · intro f2 hf2
        injection hf2 with hf2
        subst hf2
        refine ⟨by simp [handleAIResponse, hterm], ?_⟩
        have heq : chunkDeltas ((handleAIResponse h0 room aiName messageId now newId run).events)
            = run.chunks.map AIChunk.currentChunk := by
          simp only [handleAIResponse, hterm, chunkDeltas, List.filterMap_cons,
            List.filterMap_append]
          rw [← chunkDeltas, ← chunkDeltas, hdeltas]
          simp [chunkDeltas]
        rw [heq]
        exact hc f hterm
  | errorCb e =>
      refine ⟨Or.inr ⟨e, by simp [handleAIResponse, hterm]⟩,
        chunkEventsFrom_mem messageId run.chunks "", ?_, ?_, ?_⟩
      · simp [handleAIResponse, hterm, List.countP_cons, List.countP_append, hstart0, isStartEv,
          isTerminalEv]
      · simp [handleAIResponse, hterm, List.countP_cons, List.countP_append, hterm0, isStartEv,
          isTerminalEv]
      · intro f2 hf2
        cases hf2
  | thrown e =>
      refine ⟨Or.inr ⟨e, by simp [handleAIResponse, hterm]⟩,
        chunkEventsFrom_mem messageId run.chunks "", ?_, ?_, ?_⟩
      · simp [handleAIResponse, hterm, List.countP_cons, List.countP_append, hstart0, isStartEv,
          isTerminalEv]
      · simp [handleAIResponse, hterm, List.countP_cons, List.countP_append, hterm0, isStartEv,
          isTerminalEv]
      · intro f2 hf2
        cases hf2

/-- Witness for C4: a concrete two-chunk run completing with the concatenated
content persists an ai message with exactly that content. -/
theorem claim4_witness :
    (∀ f, runW.terminal = AITerminal.complete f →
        f = String.join (runW.chunks.map AIChunk.currentChunk))
    ∧ (handleAIResponse [] 1 "wayneAI" "wayneAI-1000" 1000 2 runW).persisted
        = some (aiPersistedMessage 2 1 "Hello" 1000) := by
  have hc : ∀ f, runW.terminal = AITerminal.complete f →
      f = String.join (runW.chunks.map AIChunk.currentChunk) := by
    intro f hf
    injection hf with hf
    subst hf
    decide
  exact ⟨hc, ((claim4_streaming_event_sequence [] 1 "wayneAI" "wayneAI-1000" 1000 2 runW hc).2.2.2.2
    "Hello" rfl).1⟩

theorem hDel_no_key (h : SessionHash) (k : String) :
    (hDel h k).filter (fun e => e.1 == k) = [] := by
  simp only [hDel]
  induction h with
  | nil => rfl
  | cons e rest ih =>
      by_cases hek : e.1 == k
      · simp [List.filter_cons, hek, bne, ih]
      · simp [List.filter_cons, hek, bne, ih]

/-- C5: the true part — every `handleAIResponse` run fires exactly one
terminal event, leaves no `streaming_sessions` entry under its messageId, and
persists a message iff the terminal is `Complete` — and the failing part: the
session record created by `handleAIResponse` has no `userId` property, so the
`disconnect` cleanup (`session.userId === socket.user.id`) deletes nothing:
for a concrete in-flight session of a message sent by user 7, the cleanup for
user 7 leaves the hash unchanged, contrary to the claim. -/
theorem claim5_terminal_cleanup_and_disconnect :
    (∀ (h0 : SessionHash) (room : Nat) (aiName messageId : String) (now newId : Nat)
        (run : AIRun),
      (handleAIResponse h0 room aiName messageId now newId run).sessions.filter
          (fun e => e.1 == messageId) = []
      ∧ (handleAIResponse h0 room aiName messageId now newId run).events.countP
          isTerminalEv = 1
      ∧ (handleAIResponse h0 room aiName messageId now newId run).persisted.isSome
          = isCompleteTerminal run.terminal)
    ∧ disconnectStreamCleanup
        [("wayneAI-1000", newStreamingSession 1 "wayneAI" "wayneAI-1000" 1000)] 7
        = [("wayneAI-1000", newStreamingSession 1 "wayneAI" "wayneAI-1000" 1000)]
    ∧ (newStreamingSession 1 "wayneAI" "wayneAI-1000" 1000).userId = none := by
  refine ⟨?_, by decide, rfl⟩
  intro h0 room aiName messageId now newId run
  obtain ⟨chunks, terminal⟩ := run
  have hterm0 : (chunkEvents messageId chunks).countP isTerminalEv = 0 :=
    countP_chunkEventsFrom isTerminalEv (fun _ _ _ => rfl) messageId chunks ""
  cases terminal with
  | complete f =>
      refine ⟨hDel_no_key _ messageId, ?_, by simp [handleAIResponse, isCompleteTerminal]⟩
      simp [handleAIResponse, List.countP_cons, List.countP_append, hterm0, isTerminalEv]
  | errorCb e =>
      refine ⟨hDel_no_key _ messageId, ?_, by simp [handleAIResponse, isCompleteTerminal]⟩
      simp [handleAIResponse, List.countP_cons, List.countP_append, hterm0, isTerminalEv]
  | thrown e =>
      refine ⟨hDel_no_key _ messageId, ?_, by simp [handleAIResponse, isCompleteTerminal]⟩
      simp [handleAIResponse, List.countP_cons, List.countP_append, hterm0, isTerminalEv]

/-- C6: when connection B authenticates at `tB` as a user with live sockets,
every existing socket receives `duplicate_login` at `tB` and both
`session_ended` and the forced disconnect exactly at
`tB + DUPLICATE_LOGIN_TIMEOUT` — never earlier than the 10-second grace
period — the timer evicts the old socket at expiry regardless of its state,
and no event ever targets the new connection B. -/
theorem claim6_duplicate_login_grace_period :
    ∀ (tB : Nat) (existing : List Nat) (b a : Nat),
      b ∉ existing → a ∈ existing →
      (TimedEmit.mk tB a GatewayNotice.duplicateLogin ∈ duplicateLoginProtocol tB existing
      ∧ TimedEmit.mk (tB + DUPLICATE_LOGIN_TIMEOUT) a GatewayNotice.sessionEnded
          ∈ duplicateLoginProtocol tB existing
      ∧ TimedEmit.mk (tB + DUPLICATE_LOGIN_TIMEOUT) a GatewayNotice.forceDisconnect
          ∈ duplicateLoginProtocol tB existing
      ∧ (∀ e ∈ duplicateLoginProtocol tB existing,
          (e.notice = GatewayNotice.sessionEnded ∨ e.notice = GatewayNotice.forceDisconnect) →
          e.time = tB + DUPLICATE_LOGIN_TIMEOUT ∧ tB + 10000 ≤ e.time)
      ∧ (∀ e ∈ duplicateLoginProtocol tB existing, e.target ≠ b)
      ∧ DUPLICATE_LOGIN_TIMEOUT = 10000
      ∧ (∀ c, evictAtExpiry c = false)) := by
  intro tB existing b a hb ha
  refine ⟨?_, ?_, ?_, ?_, ?_, rfl, fun _ => rfl⟩
  · exact List.mem_flatMap.mpr ⟨a, ha, by simp⟩
  · exact List.mem_flatMap.mpr ⟨a, ha, by simp⟩
  · exact List.mem_flatMap.mpr ⟨a, ha, by simp⟩
  · intro e he hnotice
    obtain ⟨x, hx, hex⟩ := List.mem_flatMap.mp he
    simp only [List.mem_cons, List.not_mem_nil, or_false] at hex
    rcases hex with h | h | h
    · subst h
      rcases hnotice with h | h <;> cases h
    · subst h
      exact ⟨rfl, Nat.le_refl _⟩
    · subst h
      exact ⟨rfl, Nat.le_refl _⟩
  · intro e he
    obtain ⟨x, hx, hex⟩ := List.mem_flatMap.mp he
    have hxb : x ≠ b := fun hxb => hb (hxb ▸ hx)
    simp only [List.mem_cons, List.not_mem_nil, or_false] at hex
    rcases hex with h | h | h <;> (subst h; exact hxb)

/-- Witness for C6: socket 1 of the already-logged-in user receives
`duplicate_login` at 2000 and `session_ended` at 12000 when connection 2
authenticates at 2000. -/
theorem claim6_witness :
    (2 ∉ ([1] : List Nat)) ∧ (1 ∈ ([1] : List Nat))
    ∧ TimedEmit.mk 2000 1 GatewayNotice.duplicateLogin ∈ duplicateLoginProtocol 2000 [1]
    ∧ TimedEmit.mk 12000 1 GatewayNotice.sessionEnded ∈ duplicateLoginProtocol 2000 [1] := by
  have h := claim6_duplicate_login_grace_period 2000 [1] 2 1 (by decide) (by decide)
  exact ⟨by decide, by decide, h.1, h.2.1⟩

end ChatSpec

namespace ChatSpec

theorem hasReader_append (m : Message) (uid now : Nat) :
    hasReader { m with readers := m.readers ++ [⟨uid, now⟩] } uid = true := by
  simp [hasReader, List.any_append]

theorem markReadUpdate_id (uid roomId now : Nat) (ids : List Nat) (m : Message) :
    (markReadUpdate uid roomId now ids m).id = m.id := by
  unfold markReadUpdate
  split <;> rfl

theorem markReadUpdate_room (uid roomId now : Nat) (ids : List Nat) (m : Message) :
    (markReadUpdate uid roomId now ids m).room = m.room := by
  unfold markReadUpdate
  split <;> rfl

theorem markReadUpdate_idem (uid roomId now1 now2 : Nat) (ids : List Nat) (m : Message) :
    markReadUpdate uid roomId now2 ids (markReadUpdate uid roomId now1 ids m)
      = markReadUpdate uid roomId now1 ids m := by
  by_cases hcond : m.id ∈ ids ∧ m.room = roomId ∧ hasReader m uid = false
  · have h1 : markReadUpdate uid roomId now1 ids m
        = { m with readers := m.readers ++ [⟨uid, now1⟩] } := by
      simp only [markReadUpdate, if_pos hcond]
    rw [h1]
    have h2 : ¬ (({ m with readers := m.readers ++ [⟨uid, now1⟩] } : Message).id ∈ ids
        ∧ ({ m with readers := m.readers ++ [⟨uid, now1⟩] } : Message).room = roomId
        ∧ hasReader { m with readers := m.readers ++ [⟨uid, now1⟩] } uid = false) := by
      simp [hasReader_append]
    simp only [markReadUpdate, if_neg h2]
  · simp only [markReadUpdate, if_neg hcond]

theorem markReadUpdate_count (uid roomId now : Nat) (ids : List Nat) (m : Message)
    (hcount : m.readers.countP (fun r => r.userId == uid) ≤ 1)
    (hid : m.id ∈ ids) (hroom : m.room = roomId) :
    (markReadUpdate uid roomId now ids m).readers.countP (fun r => r.userId == uid) = 1 := by
  cases hread : hasReader m uid with
  | true =>
      have hpos : 0 < m.readers.countP (fun r => r.userId == uid) := by
        rw [List.countP_pos_iff]
        exact List.any_eq_true.mp hread
      have hcond : ¬ (m.id ∈ ids ∧ m.room = roomId ∧ hasReader m uid = false) := by
        simp [hread]
      simp only [markReadUpdate, if_neg hcond]
      omega
  | false =>
      have hzero : m.readers.countP (fun r => r.userId == uid) = 0 := by
        rw [List.countP_eq_zero]
        intro r hr hru
        have : hasReader m uid = true := List.any_eq_true.mpr ⟨r, hr, hru⟩
        rw [this] at hread
        cases hread
      have hcond : m.id ∈ ids ∧ m.room = roomId ∧ hasReader m uid = false :=
        ⟨hid, hroom, hread⟩
      simp only [markReadUpdate, if_pos hcond, List.countP_append, hzero]
      simp

/-- C7 amended: for every NON-EMPTY messageIds list, `markMessagesAsRead` is
idempotent. -/
theorem claim7_amended_idempotent_mark_read :
    ∀ (uid roomId now1 now2 : Nat) (ids : List Nat) (db : List Message),
      ids ≠ [] →
      (∀ m ∈ db, m.readers.countP (fun r => r.userId == uid) ≤ 1) →
      (markMessagesAsRead uid roomId now2 ids
            (markMessagesAsRead uid roomId now1 ids db).1).1
          = (markMessagesAsRead uid roomId now1 ids db).1
      ∧ (markMessagesAsRead uid roomId now1 ids db).2
          = some { userId := uid, messageIds := ids }
      ∧ (markMessagesAsRead uid roomId now2 ids
            (markMessagesAsRead uid roomId now1 ids db).1).2
          = some { userId := uid, messageIds := ids }
      ∧ (∀ m ∈ (markMessagesAsRead uid roomId now1 ids db).1,
          m.id ∈ ids → m.room = roomId →
          m.readers.countP (fun r => r.userId == uid) = 1) := by
  intro uid roomId now1 now2 ids db hids hcount
  have hne : ids.isEmpty = false := by
    cases ids with
    | nil => exact absurd rfl hids
    | cons x xs => rfl
  have hmark : ∀ (now : Nat) (l : List Message), (markMessagesAsRead uid roomId now ids l).1
      = l.map (markReadUpdate uid roomId now ids) := by
    intro now l
    simp [markMessagesAsRead, hne]
  have hmark2 : ∀ (now : Nat) (l : List Message), (markMessagesAsRead uid roomId now ids l).2
      = some { userId := uid, messageIds := ids } := by
    intro now l
    simp [markMessagesAsRead, hne]
  refine ⟨?_, hmark2 now1 db, hmark2 now2 _, ?_⟩
  · rw [hmark, hmark, List.map_map]
    exact List.map_congr_left (fun m _ => markReadUpdate_idem uid roomId now1 now2 ids m)
  · intro m hm hid hroom
    rw [hmark] at hm
    obtain ⟨m0, hm0, hm0eq⟩ := List.mem_map.mp hm
    subst hm0eq
    rw [markReadUpdate_id] at hid
    rw [markReadUpdate_room] at hroom
    exact markReadUpdate_count uid roomId now1 ids m0 (hcount m0 hm0) hid hroom

/-- Witness for C7 amended. -/
theorem claim7_witness :
    (([3] : List Nat) ≠ [])
    ∧ (∀ m ∈ [mkDbMsg 3], m.readers.countP (fun r => r.userId == 1) ≤ 1)
    ∧ (markMessagesAsRead 1 1 7 [3] (markMessagesAsRead 1 1 5 [3] [mkDbMsg 3]).1).1
        = (markMessagesAsRead 1 1 5 [3] [mkDbMsg 3]).1 := by
  have h1 : (([3] : List Nat) ≠ []) := by decide
  have h2 : ∀ m ∈ [mkDbMsg 3], m.readers.countP (fun r => r.userId == 1) ≤ 1 := by decide
  exact ⟨h1, h2, (claim7_amended_idempotent_mark_read 1 1 5 7 [3] [mkDbMsg 3] h1 h2).1⟩

/-- C7 counterexample: with an empty messageIds list the handler returns
silently — no `messagesRead` broadcast is emitted (and nothing is updated),
while the claim promises a broadcast for every list. -/
theorem claim7_cex :
    (markMessagesAsRead 1 1 5 [] [mkDbMsg 3]).2 = none
    ∧ (markMessagesAsRead 1 1 5 [] [mkDbMsg 3]).1 = [mkDbMsg 3] := by
  constructor <;> rfl

end ChatSpec

namespace ChatSpec
/-- C8 counterexample: a text payload whose content trims to empty makes the
handler return silently — the trace is empty, so no message is persisted or
published but also NO error (no ValidationError) is reported to the caller;
and when the legacy `msg` field is non-empty, a message IS persisted even
though `content` trims to empty. -/
theorem claim8_cex :
    chatMessage ctxOk (some payloadBlank) = []
    ∧ Effect.persistMsg (builtTextMessage ctxOk 1 7 "hi")
        ∈ chatMessage ctxOk (some payloadBlankWithMsg) := by
  constructor
  · decide
  · decide

/-- C8 amended: for a `text` payload whose `content` and legacy `msg` both
trim to empty (with all guards passing and no `/정답 ` command), the handler
silently ignores the message: the effect trace is empty — nothing persisted,
nothing published, no error emitted, and the connection is untouched. -/
theorem claim8_amended_silent_empty_text :
    ∀ (ctx : HandlerCtx) (md : ChatMessagePayload) (room uid : Nat),
      ctx.userId = some uid → md.room = some room → md.ptype = "text" →
      ctx.roomAccess = true → ctx.sessionValid = true →
      (match md.content with
       | some c => strStartsWith c answerCommand
       | none => false) = false →
      jsTextContent md.content md.msg = "" →
      chatMessage ctx (some md) = [] := by
  intro ctx md room uid huid hroom hptype haccess hsession hanswer htext
  simp [chatMessage, huid, hroom, hptype, haccess, hsession, hanswer, htext]
  intro hfalse
  have hemp : "".isEmpty = true := by decide
  rw [hemp] at hfalse
  cases hfalse

/-- Witness for C8 amended at the concrete blank payload. -/
theorem claim8_witness :
    ctxOk.userId = some 7 ∧ jsTextContent payloadBlank.content payloadBlank.msg = ""
    ∧ chatMessage ctxOk (some payloadBlank) = [] :=
  ⟨rfl, by decide,
    claim8_amended_silent_empty_text ctxOk payloadBlank 1 7 rfl rfl rfl rfl rfl
      (by decide) (by decide)⟩

/-- C9 counterexample: with `redisClient.get` failing, a valid text send is
persisted and published, but the cache error propagates to the handler's
`catch` and an `error` event IS emitted to the caller (redisClient rethrows
after logging, redisClient.js 107-119), contrary to "no error surfaced". -/
theorem claim9_cex :
    Effect.persistMsg (builtTextMessage ctxCacheDown 1 7 "hello")
        ∈ chatMessage ctxCacheDown (some payloadHello)
    ∧ Effect.publish 1 (builtTextMessage ctxCacheDown 1 7 "hello")
        ∈ chatMessage ctxCacheDown (some payloadHello)
    ∧ Effect.errorEmit "MESSAGE_ERROR" "Redis cluster get error"
        ∈ chatMessage ctxCacheDown (some payloadHello) := by
  refine ⟨by decide, by decide, by decide⟩

/-- C9 amended: when the cache get or set fails during a valid text send,
the message is still persisted and published (those precede the cache
update) and no cache entry is written, but the failure is surfaced to the
caller as an `error{MESSAGE_ERROR}` event through the handler's catch; the
connection is not terminated. -/
theorem claim9_amended_cache_failure_surfaced :
    ∀ (ctx : HandlerCtx) (md : ChatMessagePayload) (room uid : Nat),
      ctx.userId = some uid → md.room = some room → md.ptype = "text" →
      ctx.roomAccess = true → ctx.sessionValid = true →
      (match md.content with
       | some c => strStartsWith c answerCommand
       | none => false) = false →
      (jsTextContent md.content md.msg).isEmpty = false →
      ctx.dbHasRecent = true →
      (ctx.cacheGetOk = false ∨ ctx.cacheSetOk = false) →
      Effect.persistMsg (builtTextMessage ctx room uid (jsTextContent md.content md.msg))
          ∈ chatMessage ctx (some md)
      ∧ Effect.publish room (builtTextMessage ctx room uid (jsTextContent md.content md.msg))
          ∈ chatMessage ctx (some md)
      ∧ Effect.errorEmit "MESSAGE_ERROR" ctx.cacheErrMsg ∈ chatMessage ctx (some md)
      ∧ (∀ r e, Effect.cacheSet r e ∉ chatMessage ctx (some md)) := by
  intro ctx md room uid huid hroom hptype haccess hsession hanswer htext hrecent hcache
  have htrace : chatMessage ctx (some md)
      = chatMessageAfterBuild ctx room
          (builtTextMessage ctx room uid (jsTextContent md.content md.msg)) := by
    simp [chatMessage, huid, hroom, hptype, haccess, hsession, hanswer, htext]
  rw [htrace]
  set m := builtTextMessage ctx room uid (jsTextContent md.content md.msg) with hm
  -- the base trace before the cache step
  have hbase : ∀ (tr : List Effect),
      (tr = [Effect.persistMsg m, Effect.publish room m] ++ ctx.aiMentions.map Effect.aiInvoke
        ∨ tr = ([Effect.persistMsg m, Effect.publish room m] ++ ctx.aiMentions.map Effect.aiInvoke)
            ++ [Effect.persistMsg (ghostMessage ctx room),
                Effect.emitLocal room (ghostMessage ctx room),
                Effect.publish room (ghostMessage ctx room)]) →
      Effect.persistMsg m ∈ tr ∧ Effect.publish room m ∈ tr
      ∧ (∀ r e, Effect.cacheSet r e ∉ tr) := by
    intro tr htr
    rcases htr with h | h <;> subst h
    · refine ⟨by simp, by simp, ?_⟩
      intro r e hmem
      simp at hmem
    · refine ⟨by simp, by simp, ?_⟩
      intro r e hmem
      simp at hmem
  -- now reduce chatMessageAfterBuild under the failing cache
  rcases hcache with hget | hset
  · by_cases hcnt : ctx.roomCount + 1 ≥ 2
    · have : chatMessageAfterBuild ctx room m
          = failWith (([Effect.persistMsg m, Effect.publish room m]
              ++ ctx.aiMentions.map Effect.aiInvoke)
              ++ [Effect.persistMsg (ghostMessage ctx room),
                  Effect.emitLocal room (ghostMessage ctx room),
                  Effect.publish room (ghostMessage ctx room)]) ctx.cacheErrMsg := by
        simp [chatMessageAfterBuild, hrecent, hcnt, hget]
      rw [this]
      obtain ⟨h1, h2, h3⟩ := hbase _ (Or.inr rfl)
      refine ⟨by simp [failWith, h1], by simp [failWith, h2], by simp [failWith], ?_⟩
      intro r e hmem
      simp only [failWith] at hmem
      rcases List.mem_append.mp hmem with h | h
      · exact h3 r e h
      · cases List.mem_singleton.mp h
    · have : chatMessageAfterBuild ctx room m
          = failWith ([Effect.persistMsg m, Effect.publish room m]
              ++ ctx.aiMentions.map Effect.aiInvoke) ctx.cacheErrMsg := by
        simp [chatMessageAfterBuild, hrecent, hcnt, hget]
      rw [this]
      obtain ⟨h1, h2, h3⟩ := hbase _ (Or.inl rfl)
      refine ⟨by simp [failWith, h1], by simp [failWith, h2], by simp [failWith], ?_⟩
      intro r e hmem
      simp only [failWith] at hmem
      rcases List.mem_append.mp hmem with h | h
      · exact h3 r e h
      · cases List.mem_singleton.mp h
  · by_cases hget2 : ctx.cacheGetOk = false
    · by_cases hcnt : ctx.roomCount + 1 ≥ 2
      · have : chatMessageAfterBuild ctx room m
            = failWith (([Effect.persistMsg m, Effect.publish room m]
                ++ ctx.aiMentions.map Effect.aiInvoke)
                ++ [Effect.persistMsg (ghostMessage ctx room),
                    Effect.emitLocal room (ghostMessage ctx room),
                    Effect.publish room (ghostMessage ctx room)]) ctx.cacheErrMsg := by
          simp [chatMessageAfterBuild, hrecent, hcnt, hget2]
        rw [this]
        obtain ⟨h1, h2, h3⟩ := hbase _ (Or.inr rfl)
        refine ⟨by simp [failWith, h1], by simp [failWith, h2], by simp [failWith], ?_⟩
        intro r e hmem
        simp only [failWith] at hmem
        rcases List.mem_append.mp hmem with h | h
        · exact h3 r e h
        · cases List.mem_singleton.mp h
      · have : chatMessageAfterBuild ctx room m
            = failWith ([Effect.persistMsg m, Effect.publish room m]
                ++ ctx.aiMentions.map Effect.aiInvoke) ctx.cacheErrMsg := by
          simp [chatMessageAfterBuild, hrecent, hcnt, hget2]
        rw [this]
        obtain ⟨h1, h2, h3⟩ := hbase _ (Or.inl rfl)
        refine ⟨by simp [failWith, h1], by simp [failWith, h2], by simp [failWith], ?_⟩
        intro r e hmem
        simp only [failWith] at hmem
        rcases List.mem_append.mp hmem with h | h
        · exact h3 r e h
        · cases List.mem_singleton.mp h
    · have hget3 : ctx.cacheGetOk = true := by
        cases h : ctx.cacheGetOk
        · exact absurd h hget2
        · rfl
      by_cases hcnt : ctx.roomCount + 1 ≥ 2
      · have : chatMessageAfterBuild ctx room m
            = failWith (([Effect.persistMsg m, Effect.publish room m]
                ++ ctx.aiMentions.map Effect.aiInvoke)
                ++ [Effect.persistMsg (ghostMessage ctx room),
                    Effect.emitLocal room (ghostMessage ctx room),
                    Effect.publish room (ghostMessage ctx room)]) ctx.cacheErrMsg := by
          simp [chatMessageAfterBuild, hrecent, hcnt, hget3, hset]
        rw [this]
        obtain ⟨h1, h2, h3⟩ := hbase _ (Or.inr rfl)
        refine ⟨by simp [failWith, h1], by simp [failWith, h2], by simp [failWith], ?_⟩
        intro r e hmem
        simp only [failWith] at hmem
        rcases List.mem_append.mp hmem with h | h
        · exact h3 r e h
        · cases List.mem_singleton.mp h
      · have : chatMessageAfterBuild ctx room m
            = failWith ([Effect.persistMsg m, Effect.publish room m]
                ++ ctx.aiMentions.map Effect.aiInvoke) ctx.cacheErrMsg := by
          simp [chatMessageAfterBuild, hrecent, hcnt, hget3, hset]
        rw [this]
        obtain ⟨h1, h2, h3⟩ := hbase _ (Or.inl rfl)
        refine ⟨by simp [failWith, h1], by simp [failWith, h2], by simp [failWith], ?_⟩
        intro r e hmem
        simp only [failWith] at hmem
        rcases List.mem_append.mp hmem with h | h
        · exact h3 r e h
        · cases List.mem_singleton.mp h

/-- Witness for C9 amended at the concrete failing-cache context. -/
theorem claim9_witness :
    (ctxCacheDown.cacheGetOk = false ∨ ctxCacheDown.cacheSetOk = false)
    ∧ Effect.errorEmit "MESSAGE_ERROR" ctxCacheDown.cacheErrMsg
        ∈ chatMessage ctxCacheDown (some payloadHello) :=
  ⟨Or.inl rfl,
    (claim9_amended_cache_failure_surfaced ctxCacheDown payloadHello 1 7 rfl rfl rfl rfl rfl
      (by decide) (by decide) rfl (Or.inl rfl)).2.2.1⟩

/-- C10: the joinRoom initial load (`loadMessages`) and the cache-miss path
of the `message_requests` consumer append the requesting user to the readers
of exactly the returned messages — only when not already present, changing no
other field — whereas `loadMessagesDirect` (the `fetchPreviousMessages`
`before` branch) and the consumer's cache-hit path leave the store
untouched. -/
theorem claim10_readers_side_effect :
    ∀ (db : List Message) (uid roomId : Nat) (before : Option Nat) (limit now : Nat),
      (loadMessages db uid roomId before limit now).1
          = loadMessagesDirect db (pagePred roomId before) limit
      ∧ (loadMessages db uid roomId before limit now).2
          = db.map (applyReadersUpdate uid now
              ((loadMessagesDirect db (pagePred roomId before) limit).messages.map Message.id))
      ∧ (∀ (ids : List Nat) (m : Message), hasReader m uid = true →
          applyReadersUpdate uid now ids m = m)
      ∧ (∀ (ids : List Nat) (m : Message), m.id ∉ ids →
          applyReadersUpdate uid now ids m = m)
      ∧ (∀ (ids : List Nat) (m : Message), m.id ∈ ids → hasReader m uid = false →
          (applyReadersUpdate uid now ids m).readers = m.readers ++ [⟨uid, now⟩]
          ∧ (applyReadersUpdate uid now ids m).id = m.id
          ∧ (applyReadersUpdate uid now ids m).content = m.content
          ∧ (applyReadersUpdate uid now ids m).timestamp = m.timestamp)
      ∧ (∀ e, (messageRequestConsumer db (some e) uid roomId before now).2.1 = db)
      ∧ (messageRequestConsumer db none uid roomId before now).2.1
          = (loadMessages db uid roomId before BATCH_SIZE now).2 := by
  intro db uid roomId before limit now
  refine ⟨rfl, rfl, ?_, ?_, ?_, fun e => rfl, rfl⟩
  · intro ids m hread
    simp [applyReadersUpdate, hread]
  · intro ids m hid
    simp [applyReadersUpdate, hid]
  · intro ids m hid hread
    have hcond : m.id ∈ ids ∧ hasReader m uid = false := ⟨hid, hread⟩
    simp [applyReadersUpdate, hcond]

/-- Witness for C10: a fresh reader is appended for a returned message. -/
theorem claim10_witness :
    hasReader (mkDbMsg 3) 9 = false ∧ (mkDbMsg 3).id ∈ [3]
    ∧ (applyReadersUpdate 9 77 [3] (mkDbMsg 3)).readers = (mkDbMsg 3).readers ++ [⟨9, 77⟩] :=
  ⟨by decide, by decide,
    ((claim10_readers_side_effect [] 9 1 none BATCH_SIZE 77).2.2.2.2.1 [3] (mkDbMsg 3)
      (by decide) (by decide)).1⟩

end ChatSpec
